import Mathlib

/-!
Verification of the VAD (voice activity detection) WebSocket service.

The definitions below are a shallow embedding of
`server/api/vad/base.py` (`BaseVADProcessor`: the threshold / hangover
state machine shared by all backends) and of the session loop in
`server/api/vad/__init__.py` (`vad_websocket`: frame buffering, backend
switching, parameter updates, error propagation).

Modelling conventions:
* speech probabilities are rationals (`ℚ`), compared exactly as the
  Python code compares floats (`p >= threshold`);
* the backend classifier `_get_speech_prob` is an oracle parameter
  `classify : List Nat → Option ℚ`; `none` models the backend raising an
  exception while classifying the frame;
* byte strings are `List Nat`;
* `int(ms * 16000 / 1000)` is modelled by natural division, which agrees
  with Python float division + truncation on the values used here;
* WebSocket loops are structural recursions (a fuel argument bounds the
  inner `while` loop by the buffer length; each iteration consumes at
  least one byte, so the bound is never reached).
-/

/-- Sample rate fixed in `BaseVADProcessor.__init__` (`self.sample_rate = 16000`). -/
def sampleRate : Nat := 16000

/-- `int(min_speech_ms * self.sample_rate / 1000)` from `BaseVADProcessor.__init__`. -/
def msToSamples (ms : Nat) : Nat := ms * sampleRate / 1000

/-- The mutable fields of `BaseVADProcessor`:
`threshold`, `min_speech_samples`, `min_silence_samples`, `is_speaking`,
`speech_samples`, `silence_samples`. -/
structure VADState where
  threshold : ℚ
  minSpeechSamples : Nat
  minSilenceSamples : Nat
  isSpeaking : Bool
  speechSamples : Nat
  silenceSamples : Nat
deriving DecidableEq

/-- The two boundary events the state machine can emit. -/
inductive VADEvent
  | speechStart
  | speechEnd
deriving DecidableEq

/-- The dict returned by `BaseVADProcessor.process`. -/
structure VADResult where
  speechProb : ℚ
  isSpeech : Bool
  event : Option VADEvent
  isSpeaking : Bool
deriving DecidableEq

/-- `BaseVADProcessor.__init__(threshold, min_speech_ms, min_silence_ms)`. -/
def initVADState (threshold : ℚ) (minSpeechMs minSilenceMs : Nat) : VADState :=
  { threshold := threshold
    minSpeechSamples := msToSamples minSpeechMs
    minSilenceSamples := msToSamples minSilenceMs
    isSpeaking := false
    speechSamples := 0
    silenceSamples := 0 }

/-- `BaseVADProcessor.reset`. -/
def VADState.reset (s : VADState) : VADState :=
  { s with isSpeaking := false, speechSamples := 0, silenceSamples := 0 }

/-- `BaseVADProcessor.process`, with the probability `p` returned by
`self._get_speech_prob(audio_chunk)` and the chunk length `n = len(audio_chunk)`
(in samples) taken as arguments. Returns the result dict and the updated state. -/
def VADState.process (s : VADState) (p : ℚ) (n : Nat) : VADResult × VADState :=
  if s.threshold ≤ p then
    let s1 : VADState := { s with speechSamples := s.speechSamples + n, silenceSamples := 0 }
    if s.isSpeaking = false ∧ s.minSpeechSamples ≤ s1.speechSamples then
      let s2 : VADState := { s1 with isSpeaking := true }
      ({ speechProb := p, isSpeech := true, event := some .speechStart,
         isSpeaking := s2.isSpeaking }, s2)
    else
      ({ speechProb := p, isSpeech := true, event := none, isSpeaking := s1.isSpeaking }, s1)
  else
    let s1 : VADState := { s with silenceSamples := s.silenceSamples + n }
    if s.isSpeaking = true ∧ s.minSilenceSamples ≤ s1.silenceSamples then
      let s2 : VADState := { s1 with isSpeaking := false, speechSamples := 0 }
      ({ speechProb := p, isSpeech := false, event := some .speechEnd,
         isSpeaking := s2.isSpeaking }, s2)
    else
      ({ speechProb := p, isSpeech := false, event := none, isSpeaking := s1.isSpeaking }, s1)

/-- `BaseVADProcessor.update_params(threshold=None, min_speech_ms=None, min_silence_ms=None)`:
each field is updated only when the corresponding argument is not `None`. -/
def VADState.updateParams (s : VADState) (threshold : Option ℚ)
    (minSpeechMs minSilenceMs : Option Nat) : VADState :=
  let s1 := match threshold with
    | some t => { s with threshold := t }
    | none => s
  let s2 := match minSpeechMs with
    | some ms => { s1 with minSpeechSamples := msToSamples ms }
    | none => s1
  match minSilenceMs with
  | some ms => { s2 with minSilenceSamples := msToSamples ms }
  | none => s2

/-- Run `process` over a list of classified frames `(probability, sample count)`,
collecting the per-frame results and the final state. -/
def runFrames (s : VADState) : List (ℚ × Nat) → List VADResult × VADState
  | [] => ([], s)
  | f :: fs =>
    let step := s.process f.1 f.2
    let rest := runFrames step.2 fs
    (step.1 :: rest.1, rest.2)

/-- Number of `speech_start` events among a list of per-frame results. -/
def countStarts (rs : List VADResult) : Nat :=
  (rs.filter fun r => r.event = some VADEvent.speechStart).length

/-- Number of `speech_end` events among a list of per-frame results. -/
def countEnds (rs : List VADResult) : Nat :=
  (rs.filter fun r => r.event = some VADEvent.speechEnd).length

/-! ## The frame buffer (`vad_websocket` inner `while` loop)

`while len(audio_buffer) >= bytes_needed:` slice off the first
`bytes_needed` bytes as one frame, keep the rest. `extractFramesAux`
mirrors one execution of that loop, with a fuel argument for structural
recursion; each iteration removes `fb ≥ 1` bytes, so fuel
`buf.length` always suffices. -/

def extractFramesAux (fb : Nat) : Nat → List Nat → List (List Nat) × List Nat
  | 0, buf => ([], buf)
  | fuel + 1, buf =>
    if 0 < fb ∧ fb ≤ buf.length then
      let r := extractFramesAux fb fuel (buf.drop fb)
      (buf.take fb :: r.1, r.2)
    else ([], buf)

/-- Slice as many whole `fb`-byte frames as possible off the front of `buf`;
return the frames in order and the remaining tail. -/
def extractFrames (fb : Nat) (buf : List Nat) : List (List Nat) × List Nat :=
  extractFramesAux fb buf.length buf

/-- The frame buffer driven by a sequence of binary `push` calls
(`audio_buffer += message["bytes"]` followed by the slicing loop),
starting from buffered bytes `buf`. Returns all frames yielded, in order,
and the bytes still buffered at the end. -/
def runPushes (fb : Nat) (buf : List Nat) : List (List Nat) → List (List Nat) × List Nat
  | [] => ([], buf)
  | c :: cs =>
    let step := extractFrames fb (buf ++ c)
    let rest := runPushes fb step.2 cs
    (step.1 ++ rest.1, rest.2)

/-! ## The WebSocket session (`vad_websocket`) -/

/-- The VAD backend names dispatched by `create_vad_processor`. -/
inductive BackendName
  | ten
  | webrtc
  | sileroTorch
  | sileroOnnx
  | funasr
deriving DecidableEq

/-- `CHUNK_SIZES` together with `get_chunk_size` (`CHUNK_SIZES.get(backend, 512)`):
recommended chunk size in samples per backend, defaulting to 512. -/
def CHUNK_SIZES : BackendName → Nat
  | .ten => 256
  | .webrtc => 480
  | .sileroTorch => 512
  | .sileroOnnx => 512
  | .funasr => 512

/-- The per-connection mutable state of `vad_websocket`:
current `backend`, the processor state, `audio_buffer`, `frame_count`.
(`chunk_size` is always `get_chunk_size(backend)`, so it is derived,
not stored.) -/
structure Session where
  backend : BackendName
  vad : VADState
  buffer : List Nat
  frameCount : Nat
deriving DecidableEq

/-- Session state right after `vad_websocket` accepts a connection:
processor created with `threshold=0.5, min_speech_ms=250, min_silence_ms=500`,
empty buffer, zero frames. -/
def initSession (b : BackendName) : Session :=
  { backend := b
    vad := initVADState (mkRat 1 2) 250 500
    buffer := []
    frameCount := 0 }

/-- The fields of the JSON config object read by the text-message branch:
`is_speaking`, `backend`, `threshold`, `min_speech_ms`, `min_silence_ms`,
`reset`. `none` models an absent key. -/
structure ControlMsg where
  isSpeakingField : Option Bool
  backendField : Option BackendName
  thresholdField : Option ℚ
  minSpeechMsField : Option Nat
  minSilenceMsField : Option Nat
  resetField : Bool
deriving DecidableEq

/-- The text-message branch of `vad_websocket`.
`constructOk b` tells whether `create_vad_processor(backend=b, ...)` succeeds
(model load / import errors are external). Returns the updated session and
`false` when the client sent `is_speaking: false` (loop `break`).
On a successful switch a fresh processor is created with the message's
parameters (defaults `0.5 / 250 / 500`); on a failed switch the exception is
caught and logged, changing nothing. Note the buffer is never touched here. -/
def handleControl (constructOk : BackendName → Bool) (s : Session) (c : ControlMsg) :
    Session × Bool :=
  if c.isSpeakingField = some false then (s, false)
  else
    let s1 :=
      match c.backendField with
      | some nb =>
        if nb ≠ s.backend then
          if constructOk nb then
            { s with
                backend := nb,
                vad := initVADState (c.thresholdField.getD (mkRat 1 2))
                  (c.minSpeechMsField.getD 250) (c.minSilenceMsField.getD 500) }
          else s
        else
          let vad1 := s.vad.updateParams c.thresholdField c.minSpeechMsField c.minSilenceMsField
          { s with vad := vad1 }
      | none =>
        let vad1 := s.vad.updateParams c.thresholdField c.minSpeechMsField c.minSilenceMsField
        { s with vad := vad1 }
    let s2 := if c.resetField then { s1 with vad := s1.vad.reset } else s1
    (s2, true)

/-- One JSON message sent back over the socket on a boundary event
(`send_json` in the binary branch; only the semantically relevant fields). -/
structure ServerEvent where
  event : VADEvent
  isSpeaking : Bool
  speechProb : ℚ
deriving DecidableEq

/-- The `if result['event']:` block: `speech_start` is sent with
`is_speaking: True`, `speech_end` with `is_speaking: False`, both carrying
`result['speech_prob']`; no message otherwise. -/
def eventMsgs (r : VADResult) : List ServerEvent :=
  match r.event with
  | some VADEvent.speechStart =>
    [{ event := .speechStart, isSpeaking := true, speechProb := r.speechProb }]
  | some VADEvent.speechEnd =>
    [{ event := .speechEnd, isSpeaking := false, speechProb := r.speechProb }]
  | none => []

/-- Result of draining the frame buffer once after a binary message:
events sent, frames handed to the backend classifier, processor state,
remaining buffer, frame counter, and whether the loop finished without a
backend exception (`ok = false` models `_get_speech_prob` raising, which
propagates out of `while True` and ends the session). -/
structure BufferOutcome where
  events : List ServerEvent
  frames : List (List Nat)
  vad : VADState
  buffer : List Nat
  frameCount : Nat
  ok : Bool
deriving DecidableEq

/-- The binary-message branch of `vad_websocket`:
`bytes_needed = chunk_size * 2`; while enough bytes are buffered, slice one
frame, classify it (`classify` is the `_get_speech_prob` oracle; `none`
raises), run the state machine on `chunk_size` samples, send any event.
A raised classification error aborts the loop with `ok = false` after the
frame counter was already incremented and the frame consumed. -/
def handleBufferAux (classify : List Nat → Option ℚ) (cs : Nat) :
    Nat → VADState → List Nat → Nat → BufferOutcome
  | 0, vad, buf, cnt => ⟨[], [], vad, buf, cnt, true⟩
  | fuel + 1, vad, buf, cnt =>
    if 0 < cs ∧ cs * 2 ≤ buf.length then
      let fr := buf.take (cs * 2)
      let rest := buf.drop (cs * 2)
      match classify fr with
      | none => ⟨[], [fr], vad, rest, cnt + 1, false⟩
      | some p =>
        let step := vad.process p cs
        let r := handleBufferAux classify cs fuel step.2 rest (cnt + 1)
        ⟨eventMsgs step.1 ++ r.events, fr :: r.frames, r.vad, r.buffer, r.frameCount, r.ok⟩
    else ⟨[], [], vad, buf, cnt, true⟩

/-- Drain the frame buffer (fuel instantiated to the buffer length, which
suffices because every iteration consumes `cs * 2 ≥ 2` bytes). -/
def handleBuffer (classify : List Nat → Option ℚ) (cs : Nat) (vad : VADState)
    (buf : List Nat) (cnt : Nat) : BufferOutcome :=
  handleBufferAux classify cs buf.length vad buf cnt

/-- A message received from the client: JSON text (parsed config) or binary audio. -/
inductive ClientMsg
  | text (c : ControlMsg)
  | binary (bytes : List Nat)

/-- Result of feeding messages to the session loop: events sent, final
session state, and whether the loop is still running (`alive = false`
after a client `is_speaking: false` break or a backend exception). -/
structure StepOutcome where
  events : List ServerEvent
  session : Session
  alive : Bool
deriving DecidableEq

/-- One iteration of the `while True` receive loop of `vad_websocket`. -/
def sessionStep (constructOk : BackendName → Bool) (classify : List Nat → Option ℚ)
    (s : Session) : ClientMsg → StepOutcome
  | .text c =>
    let r := handleControl constructOk s c
    ⟨[], r.1, r.2⟩
  | .binary bs =>
    let cs := CHUNK_SIZES s.backend
    let r := handleBuffer classify cs s.vad (s.buffer ++ bs) s.frameCount
    ⟨r.events, { s with vad := r.vad, buffer := r.buffer, frameCount := r.frameCount }, r.ok⟩

/-- The receive loop over a message sequence: stops early (leaving later
messages unprocessed) as soon as a step reports the session over.
The `finally` cleanup that runs after the loop exits (a last `reset()`
before closing the socket) is outside the model: it happens after the
session is already over and sends nothing. -/
def sessionRun (constructOk : BackendName → Bool) (classify : List Nat → Option ℚ)
    (s : Session) : List ClientMsg → StepOutcome
  | [] => ⟨[], s, true⟩
  | m :: ms =>
    let r := sessionStep constructOk classify s m
    if r.alive then
      let rest := sessionRun constructOk classify r.session ms
      ⟨r.events ++ rest.events, rest.session, rest.alive⟩
    else r

/-! ## Lemmas about one `process` step -/

/-- `process` never changes the configured parameters. -/
theorem process_params (s : VADState) (p : ℚ) (n : Nat) :
    (s.process p n).2.threshold = s.threshold ∧
    (s.process p n).2.minSpeechSamples = s.minSpeechSamples ∧
    (s.process p n).2.minSilenceSamples = s.minSilenceSamples := by
  simp only [VADState.process]
  split_ifs <;> simp

/-- Qualifying frame while the accumulated speech run stays below the minimum:
no event, counters updated. -/
theorem process_speech_quiet (s : VADState) (p : ℚ) (n : Nat)
    (hp : s.threshold ≤ p) (hq : s.speechSamples + n < s.minSpeechSamples) :
    s.process p n =
      ({ speechProb := p, isSpeech := true, event := none, isSpeaking := s.isSpeaking },
       { s with speechSamples := s.speechSamples + n, silenceSamples := 0 }) := by
  simp only [VADState.process, if_pos hp]
  rw [if_neg]
  rintro ⟨-, h⟩
  omega

/-- Qualifying frame while already `Speaking`: no event. -/
theorem process_speech_speaking (s : VADState) (p : ℚ) (n : Nat)
    (hs : s.isSpeaking = true) (hp : s.threshold ≤ p) :
    s.process p n =
      ({ speechProb := p, isSpeech := true, event := none, isSpeaking := s.isSpeaking },
       { s with speechSamples := s.speechSamples + n, silenceSamples := 0 }) := by
  simp only [VADState.process, if_pos hp]
  rw [if_neg]
  simp [hs]

/-- Qualifying frame in `Silent` reaching the minimum: `speech_start`. -/
theorem process_speech_trigger (s : VADState) (p : ℚ) (n : Nat)
    (hs : s.isSpeaking = false) (hp : s.threshold ≤ p)
    (hmin : s.minSpeechSamples ≤ s.speechSamples + n) :
    s.process p n =
      ({ speechProb := p, isSpeech := true, event := some VADEvent.speechStart,
         isSpeaking := true },
       { s with isSpeaking := true, speechSamples := s.speechSamples + n,
                silenceSamples := 0 }) := by
  simp only [VADState.process, if_pos hp]
  rw [if_pos ⟨hs, hmin⟩]

/-- Below-threshold frame while `Silent`: no event, only the silence counter moves. -/
theorem process_silence_silent (s : VADState) (p : ℚ) (n : Nat)
    (hs : s.isSpeaking = false) (hp : p < s.threshold) :
    s.process p n =
      ({ speechProb := p, isSpeech := false, event := none, isSpeaking := s.isSpeaking },
       { s with silenceSamples := s.silenceSamples + n }) := by
  simp only [VADState.process, if_neg (not_le.mpr hp)]
  rw [if_neg]
  simp [hs]

/-- Below-threshold frame while `Speaking`, silence run still below minimum: no event. -/
theorem process_silence_speaking_quiet (s : VADState) (p : ℚ) (n : Nat)
    (hp : p < s.threshold) (hq : s.silenceSamples + n < s.minSilenceSamples) :
    s.process p n =
      ({ speechProb := p, isSpeech := false, event := none, isSpeaking := s.isSpeaking },
       { s with silenceSamples := s.silenceSamples + n }) := by
  simp only [VADState.process, if_neg (not_le.mpr hp)]
  rw [if_neg]
  rintro ⟨-, h⟩
  omega

/-- Below-threshold frame while `Speaking` reaching the silence minimum: `speech_end`,
`speech_samples` reset to `0`, `silence_samples` not reset. -/
theorem process_silence_end (s : VADState) (p : ℚ) (n : Nat)
    (hs : s.isSpeaking = true) (hp : p < s.threshold)
    (hmin : s.minSilenceSamples ≤ s.silenceSamples + n) :
    s.process p n =
      ({ speechProb := p, isSpeech := false, event := some VADEvent.speechEnd,
         isSpeaking := false },
       { s with isSpeaking := false, speechSamples := 0,
                silenceSamples := s.silenceSamples + n }) := by
  simp only [VADState.process, if_neg (not_le.mpr hp)]
  rw [if_pos ⟨hs, hmin⟩]

/-- A below-threshold frame can never emit `speech_start`. -/
theorem process_silence_no_start (s : VADState) (p : ℚ) (n : Nat) (hp : p < s.threshold) :
    (s.process p n).1.event ≠ some VADEvent.speechStart := by
  simp only [VADState.process, if_neg (not_le.mpr hp)]
  split_ifs <;> simp

/-! ## Lemmas about runs of frames -/

theorem runFrames_append (s : VADState) (xs ys : List (ℚ × Nat)) :
    runFrames s (xs ++ ys) =
      ((runFrames s xs).1 ++ (runFrames (runFrames s xs).2 ys).1,
       (runFrames (runFrames s xs).2 ys).2) := by
  induction xs generalizing s with
  | nil => simp [runFrames]
  | cons x xs ih => simp [runFrames, ih]

theorem countStarts_append (xs ys : List VADResult) :
    countStarts (xs ++ ys) = countStarts xs + countStarts ys := by
  simp [countStarts, List.filter_append]

theorem countEnds_append (xs ys : List VADResult) :
    countEnds (xs ++ ys) = countEnds xs + countEnds ys := by
  simp [countEnds, List.filter_append]

/-- A run of qualifying frames from `Silent` whose total stays below
`min_speech_samples`: no events at all, speech evidence accumulates, state
stays `Silent` with parameters unchanged. -/
theorem run_silent_quiet (qs : List (ℚ × Nat)) : ∀ s : VADState,
    s.isSpeaking = false →
    (∀ f ∈ qs, s.threshold ≤ f.1) →
    s.speechSamples + (qs.map Prod.snd).sum < s.minSpeechSamples →
    (∀ r ∈ (runFrames s qs).1, r.event = none) ∧
    (runFrames s qs).2.threshold = s.threshold ∧
    (runFrames s qs).2.minSpeechSamples = s.minSpeechSamples ∧
    (runFrames s qs).2.isSpeaking = false ∧
    (runFrames s qs).2.speechSamples = s.speechSamples + (qs.map Prod.snd).sum := by
  induction qs with
  | nil => intro s hs _ _; simpa [runFrames] using hs
  | cons q qs ih =>
    intro s hs hq hlt
    have hq1 : s.threshold ≤ q.1 := hq q (List.mem_cons_self q qs)
    have hstep := process_speech_quiet s q.1 q.2 hq1 (by
      have := (qs.map Prod.snd).sum.zero_le
      simp only [List.map_cons, List.sum_cons] at hlt
      omega)
    have ihh := ih { s with speechSamples := s.speechSamples + q.2, silenceSamples := 0 }
      (by simpa using hs)
      (by intro f hf; simpa using hq f (List.mem_cons_of_mem q hf))
      (by simp only [List.map_cons, List.sum_cons] at hlt ⊢; omega)
    simp only [runFrames, hstep]
    refine ⟨?_, ?_, ?_, ?_, ?_⟩
    · intro r hr
      rcases List.mem_cons.mp hr with h | h
      · rw [h]
      · exact ihh.1 r h
    · simpa using ihh.2.1
    · simpa using ihh.2.2.1
    · simpa using ihh.2.2.2.1
    · simp only [List.map_cons, List.sum_cons]
      have := ihh.2.2.2.2
      simp only at this
      omega

/-- A run of qualifying frames while `Speaking`: no events, state stays `Speaking`. -/
theorem run_speaking_qualifying (frames : List (ℚ × Nat)) : ∀ s : VADState,
    s.isSpeaking = true →
    (∀ f ∈ frames, s.threshold ≤ f.1) →
    (∀ r ∈ (runFrames s frames).1, r.event = none) ∧
    (runFrames s frames).2.isSpeaking = true := by
  induction frames with
  | nil => intro s hs _; simpa [runFrames] using hs
  | cons q qs ih =>
    intro s hs hq
    have hstep := process_speech_speaking s q.1 q.2 hs (hq q (List.mem_cons_self q qs))
    have ihh := ih { s with speechSamples := s.speechSamples + q.2, silenceSamples := 0 }
      (by simpa using hs)
      (by intro f hf; simpa using hq f (List.mem_cons_of_mem q hf))
    simp only [runFrames, hstep]
    refine ⟨?_, ihh.2⟩
    intro r hr
    rcases List.mem_cons.mp hr with h | h
    · rw [h]
    · exact ihh.1 r h

/-- A run of below-threshold frames while `Silent`: no events, state stays `Silent`. -/
theorem run_silent_below (frames : List (ℚ × Nat)) : ∀ s : VADState,
    s.isSpeaking = false →
    (∀ f ∈ frames, f.1 < s.threshold) →
    (∀ r ∈ (runFrames s frames).1, r.event = none) ∧
    (runFrames s frames).2.isSpeaking = false := by
  induction frames with
  | nil => intro s hs _; simpa [runFrames] using hs
  | cons q qs ih =>
    intro s hs hq
    have hstep := process_silence_silent s q.1 q.2 hs (hq q (List.mem_cons_self q qs))
    have ihh := ih { s with silenceSamples := s.silenceSamples + q.2 }
      (by simpa using hs)
      (by intro f hf; simpa using hq f (List.mem_cons_of_mem q hf))
    simp only [runFrames, hstep]
    refine ⟨?_, ihh.2⟩
    intro r hr
    rcases List.mem_cons.mp hr with h | h
    · rw [h]
    · exact ihh.1 r h

/-- A list of results all of whose events are `none` has no `speech_start`. -/
theorem countStarts_eq_zero (rs : List VADResult) (h : ∀ r ∈ rs, r.event = none) :
    countStarts rs = 0 := by
  simp only [countStarts, List.length_eq_zero, List.filter_eq_nil_iff]
  intro r hr
  simp [h r hr]

/-- A list of results all of whose events are `none` has no `speech_end`. -/
theorem countEnds_eq_zero (rs : List VADResult) (h : ∀ r ∈ rs, r.event = none) :
    countEnds rs = 0 := by
  simp only [countEnds, List.length_eq_zero, List.filter_eq_nil_iff]
  intro r hr
  simp [h r hr]

theorem countStarts_cons (r : VADResult) (rs : List VADResult) :
    countStarts (r :: rs) =
      (if r.event = some VADEvent.speechStart then 1 else 0) + countStarts rs := by
  simp only [countStarts, List.filter_cons]
  split_ifs with h h2 h3 <;> simp_all
  omega

theorem bool_not_false (b : Bool) (h : ¬ b = false) : b = true := by
  cases b <;> simp_all

/-! ## Claims about the boundary state machine -/

/-- Claim C1: a frame with `p >= threshold` adds its sample count to the speech
run and zeroes the silence run; if the state was `Silent` and the updated run
reaches `min_speech_samples`, the state becomes `Speaking` and exactly one
`speech_start` carrying `p` is emitted. Consequently a fresh session whose
qualifying run totals exactly `min_speech_samples - 1` samples before dropping
below threshold emits no `speech_start`, while extending that run by one more
qualifying frame emits exactly one. -/
theorem C1_speech_accumulation_and_gate :
    (∀ (s : VADState) (p : ℚ) (n : Nat), s.threshold ≤ p →
        (s.process p n).2.speechSamples = s.speechSamples + n ∧
        (s.process p n).2.silenceSamples = 0 ∧
        (s.isSpeaking = false → s.minSpeechSamples ≤ s.speechSamples + n →
          (s.process p n).2.isSpeaking = true ∧
          (s.process p n).1.event = some VADEvent.speechStart ∧
          (s.process p n).1.speechProb = p)) ∧
    (∀ (th pd : ℚ) (msMs silMs nd : Nat) (qs : List (ℚ × Nat)),
        (∀ f ∈ qs, th ≤ f.1) →
        ((qs.map Prod.snd).sum = (initVADState th msMs silMs).minSpeechSamples - 1) →
        0 < (initVADState th msMs silMs).minSpeechSamples →
        pd < th →
        (countStarts (runFrames (initVADState th msMs silMs) (qs ++ [(pd, nd)])).1 = 0 ∧
         ∀ (q : ℚ) (m : Nat), th ≤ q → 0 < m →
           countStarts
             (runFrames (initVADState th msMs silMs) (qs ++ [(q, m), (pd, nd)])).1 = 1)) := by
  constructor
  · intro s p n hp
    by_cases hs : s.isSpeaking = false
    · by_cases hmin : s.minSpeechSamples ≤ s.speechSamples + n
      · rw [process_speech_trigger s p n hs hp hmin]
        exact ⟨rfl, rfl, fun _ _ => ⟨rfl, rfl, rfl⟩⟩
      · rw [process_speech_quiet s p n hp (by omega)]
        exact ⟨rfl, rfl, fun _ hmin2 => absurd hmin2 hmin⟩
    · rw [process_speech_speaking s p n (bool_not_false _ hs) hp]
      exact ⟨rfl, rfl, fun hf _ => absurd hf hs⟩
  · intro th pd msMs silMs nd qs hq hsum hpos hdrop
    have hth : (initVADState th msMs silMs).threshold = th := rfl
    have h0 : (initVADState th msMs silMs).speechSamples = 0 := rfl
    have hrun := run_silent_quiet qs (initVADState th msMs silMs) rfl
      (by simpa [hth] using hq) (by rw [h0]; omega)
    obtain ⟨hnone, hth1, hms1, hsp1, hss1⟩ := hrun
    constructor
    · rw [runFrames_append, countStarts_append, countStarts_eq_zero _ hnone]
      simp only [runFrames, countStarts_cons]
      rw [if_neg (process_silence_no_start (runFrames (initVADState th msMs silMs) qs).2
        pd nd (by rw [hth1, hth]; exact hdrop))]
      simp [countStarts]
    · intro q m hq2 hm
      rw [runFrames_append, countStarts_append, countStarts_eq_zero _ hnone]
      have htrig := process_speech_trigger (runFrames (initVADState th msMs silMs) qs).2
        q m hsp1 (by rw [hth1, hth]; exact hq2)
        (by rw [hms1, hss1, h0]; omega)
      have hnostart := process_silence_no_start
        (((runFrames (initVADState th msMs silMs) qs).2).process q m).2 pd nd
        (by rw [(process_params _ q m).1, hth1, hth]; exact hdrop)
      simp only [runFrames, countStarts_cons]
      rw [if_pos (by rw [htrig]), if_neg hnostart]
      simp [countStarts]

/-- Witness for C1 at threshold `1/2`, `min_speech_ms = 250` (4000 samples):
a 3999-sample qualifying run then a drop emits no start, and inserting one
more qualifying sample before the drop emits exactly one. -/
theorem C1_speech_accumulation_and_gate_witness :
    ((initVADState (mkRat 1 2) 250 500).process (mkRat 9 10) 4000).1.event
        = some VADEvent.speechStart ∧
    countStarts (runFrames (initVADState (mkRat 1 2) 250 500)
        ([(mkRat 9 10, 3999)] ++ [(mkRat 1 10, 100)])).1 = 0 ∧
    countStarts (runFrames (initVADState (mkRat 1 2) 250 500)
        ([(mkRat 9 10, 3999)] ++ [(mkRat 9 10, 1), (mkRat 1 10, 100)])).1 = 1 := by
  have h1 := (C1_speech_accumulation_and_gate.1 (initVADState (mkRat 1 2) 250 500)
    (mkRat 9 10) 4000 (by decide)).2.2 (by decide) (by decide)
  have h2 := C1_speech_accumulation_and_gate.2 (mkRat 1 2) (mkRat 1 10) 250 500 100
    [(mkRat 9 10, 3999)] (by decide) (by decide) (by decide) (by decide)
  exact ⟨h1.2.1, h2.1, h2.2 (mkRat 9 10) 1 (by decide) (by decide)⟩

set_option maxRecDepth 40000 in
/-- Claim C5: with the default parameters of the WebSocket endpoint
(`threshold=0.5`, `min_speech_ms=250`, `min_silence_ms=500`, 16 kHz, hence
4000 / 8000 samples), nine 512-sample frames at probability 0.9 emit
`speech_start` exactly on the 8th frame and nothing else, and sixteen
subsequent 512-sample frames at probability 0.1 emit `speech_end` exactly
on the 16th of them and nothing else. -/
theorem C5_default_scenario :
    (initVADState (mkRat 1 2) 250 500).minSpeechSamples = 4000 ∧
    (initVADState (mkRat 1 2) 250 500).minSilenceSamples = 8000 ∧
    ((runFrames (initVADState (mkRat 1 2) 250 500)
        (List.replicate 9 (mkRat 9 10, 512) ++ List.replicate 16 (mkRat 1 10, 512))).1.map
      fun r => r.event) =
      List.replicate 7 none ++ [some VADEvent.speechStart] ++ List.replicate 16 none
        ++ [some VADEvent.speechEnd] := by
  decide

/-- Claim C7: while `Speaking`, arbitrarily many qualifying frames emit zero
further `speech_start`; while `Silent`, arbitrarily many below-threshold
frames emit zero `speech_end`; and a single step emits an event only if it
flips `is_speaking`. -/
theorem C7_events_only_on_transition :
    (∀ (s : VADState) (frames : List (ℚ × Nat)), s.isSpeaking = true →
        (∀ f ∈ frames, s.threshold ≤ f.1) →
        countStarts (runFrames s frames).1 = 0) ∧
    (∀ (s : VADState) (frames : List (ℚ × Nat)), s.isSpeaking = false →
        (∀ f ∈ frames, f.1 < s.threshold) →
        countEnds (runFrames s frames).1 = 0) ∧
    (∀ (s : VADState) (p : ℚ) (n : Nat), (s.process p n).1.event ≠ none →
        (s.process p n).2.isSpeaking ≠ s.isSpeaking) := by
  refine ⟨?_, ?_, ?_⟩
  · intro s frames hs hq
    exact countStarts_eq_zero _ (run_speaking_qualifying frames s hs hq).1
  · intro s frames hs hb
    exact countEnds_eq_zero _ (run_silent_below frames s hs hb).1
  · intro s p n hev
    by_cases hp : s.threshold ≤ p
    · by_cases hs : s.isSpeaking = false
      · by_cases hmin : s.minSpeechSamples ≤ s.speechSamples + n
        · rw [process_speech_trigger s p n hs hp hmin, hs]
          simp
        · rw [process_speech_quiet s p n hp (by omega)] at hev
          simp at hev
      · rw [process_speech_speaking s p n (bool_not_false _ hs) hp] at hev
        simp at hev
    · have hplt : p < s.threshold := not_le.mp hp
      by_cases hs : s.isSpeaking = true
      · by_cases hmin : s.minSilenceSamples ≤ s.silenceSamples + n
        · rw [process_silence_end s p n hs hplt hmin, hs]
          simp
        · rw [process_silence_speaking_quiet s p n hplt (by omega)] at hev
          simp at hev
      · have hs2 : s.isSpeaking = false := by revert hs; cases s.isSpeaking <;> simp
        rw [process_silence_silent s p n hs2 hplt] at hev
        simp at hev

/-- Witness for C7 on concrete runs: staying `Speaking` over two loud frames
emits no start, staying `Silent` over two quiet frames emits no end, and a
concrete event-emitting step flips the state. -/
theorem C7_events_only_on_transition_witness :
    countStarts (runFrames
      { threshold := mkRat 1 2, minSpeechSamples := 4000, minSilenceSamples := 8000,
        isSpeaking := true, speechSamples := 5000, silenceSamples := 0 }
      [(mkRat 9 10, 512), (mkRat 9 10, 512)]).1 = 0 ∧
    countEnds (runFrames
      { threshold := mkRat 1 2, minSpeechSamples := 4000, minSilenceSamples := 8000,
        isSpeaking := false, speechSamples := 0, silenceSamples := 0 }
      [(mkRat 1 10, 512), (mkRat 1 10, 512)]).1 = 0 ∧
    ({ threshold := mkRat 1 2, minSpeechSamples := 1, minSilenceSamples := 8000,
       isSpeaking := false, speechSamples := 0,
       silenceSamples := 0 : VADState }.process (mkRat 9 10) 1).2.isSpeaking
      ≠ ({ threshold := mkRat 1 2, minSpeechSamples := 1, minSilenceSamples := 8000,
           isSpeaking := false, speechSamples := 0,
           silenceSamples := 0 : VADState }).isSpeaking := by
  refine ⟨C7_events_only_on_transition.1 _ _ rfl (by decide),
    C7_events_only_on_transition.2.1 _ _ rfl (by decide),
    C7_events_only_on_transition.2.2 _ (mkRat 9 10) 1 (by decide)⟩

/-- Counterexample to claim C8 as stated ("both counters are reset to zero by
every state transition"): a `Silent → Speaking` transition leaves the speech
run counter at its accumulated value (not 0), and a `Speaking → Silent`
transition leaves the silence run counter at its accumulated value (not 0). -/
theorem C8_counterexample :
    ((({ threshold := mkRat 1 2, minSpeechSamples := 1, minSilenceSamples := 8000,
         isSpeaking := false, speechSamples := 0,
         silenceSamples := 0 : VADState }).process (mkRat 9 10) 1).2.isSpeaking ≠ false ∧
     (({ threshold := mkRat 1 2, minSpeechSamples := 1, minSilenceSamples := 8000,
         isSpeaking := false, speechSamples := 0,
         silenceSamples := 0 : VADState }).process (mkRat 9 10) 1).2.speechSamples ≠ 0) ∧
    ((({ threshold := mkRat 1 2, minSpeechSamples := 4000, minSilenceSamples := 10,
         isSpeaking := true, speechSamples := 5000,
         silenceSamples := 9 : VADState }).process (mkRat 1 10) 1).2.isSpeaking ≠ true ∧
     (({ threshold := mkRat 1 2, minSpeechSamples := 4000, minSilenceSamples := 10,
         isSpeaking := true, speechSamples := 5000,
         silenceSamples := 9 : VADState }).process (mkRat 1 10) 1).2.silenceSamples ≠ 0) := by
  decide

/-- Claim C8 (amended): on the `Speaking → Silent` transition only
`speech_samples` is reset to 0 while `silence_samples` keeps its accumulated
value; on the `Silent → Speaking` transition neither counter is reset by the
transition itself — `speech_samples` keeps its accumulated value and
`silence_samples` is 0 only because the qualifying frame already zeroed it. -/
theorem C8_transition_counter_effects (s : VADState) (p : ℚ) (n : Nat)
    (h : (s.process p n).2.isSpeaking ≠ s.isSpeaking) :
    (s.isSpeaking = false →
      (s.process p n).1.event = some VADEvent.speechStart ∧
      (s.process p n).2.speechSamples = s.speechSamples + n ∧
      (s.process p n).2.silenceSamples = 0) ∧
    (s.isSpeaking = true →
      (s.process p n).1.event = some VADEvent.speechEnd ∧
      (s.process p n).2.speechSamples = 0 ∧
      (s.process p n).2.silenceSamples = s.silenceSamples + n) := by
  by_cases hp : s.threshold ≤ p
  · by_cases hs : s.isSpeaking = false
    · by_cases hmin : s.minSpeechSamples ≤ s.speechSamples + n
      · rw [process_speech_trigger s p n hs hp hmin]
        exact ⟨fun _ => ⟨rfl, rfl, rfl⟩, fun ht => absurd (hs.symm.trans ht) (by simp)⟩
      · rw [process_speech_quiet s p n hp (by omega)] at h
        simp at h
    · rw [process_speech_speaking s p n (bool_not_false _ hs) hp] at h
      simp at h
  · have hplt : p < s.threshold := not_le.mp hp
    by_cases hs : s.isSpeaking = true
    · by_cases hmin : s.minSilenceSamples ≤ s.silenceSamples + n
      · rw [process_silence_end s p n hs hplt hmin]
        exact ⟨fun hf => absurd (hf.symm.trans hs) (by simp), fun _ => ⟨rfl, rfl, rfl⟩⟩
      · rw [process_silence_speaking_quiet s p n hplt (by omega)] at h
        simp at h
    · have hs2 : s.isSpeaking = false := by revert hs; cases s.isSpeaking <;> simp
      rw [process_silence_silent s p n hs2 hplt] at h
      simp at h

/-- Witness for the amended C8 at a concrete `Speaking → Silent` transition. -/
theorem C8_transition_counter_effects_witness :
    (({ threshold := mkRat 1 2, minSpeechSamples := 4000, minSilenceSamples := 10,
        isSpeaking := true, speechSamples := 5000,
        silenceSamples := 9 : VADState }).process (mkRat 1 10) 1).1.event
        = some VADEvent.speechEnd ∧
    (({ threshold := mkRat 1 2, minSpeechSamples := 4000, minSilenceSamples := 10,
        isSpeaking := true, speechSamples := 5000,
        silenceSamples := 9 : VADState }).process (mkRat 1 10) 1).2.speechSamples = 0 ∧
    (({ threshold := mkRat 1 2, minSpeechSamples := 4000, minSilenceSamples := 10,
        isSpeaking := true, speechSamples := 5000,
        silenceSamples := 9 : VADState }).process (mkRat 1 10) 1).2.silenceSamples = 10 :=
  (C8_transition_counter_effects _ (mkRat 1 10) 1 (by decide)).2 rfl

/-- Claim C10: a below-threshold frame while `Silent` never changes the speech
run counter; the speech run counter strictly decreases only on the
`Speaking → Silent` transition, where it is zeroed; `reset` zeroes it; and
every qualifying frame zeroes the silence run counter (so silence evidence
must be contiguous, while speech evidence survives intervening silence). -/
theorem C10_speech_evidence_persists :
    (∀ (s : VADState) (p : ℚ) (n : Nat), s.isSpeaking = false → p < s.threshold →
        (s.process p n).2.speechSamples = s.speechSamples) ∧
    (∀ (s : VADState) (p : ℚ) (n : Nat),
        (s.process p n).2.speechSamples < s.speechSamples →
        s.isSpeaking = true ∧ (s.process p n).2.isSpeaking = false ∧
        (s.process p n).2.speechSamples = 0 ∧
        (s.process p n).1.event = some VADEvent.speechEnd) ∧
    (∀ s : VADState, s.reset.speechSamples = 0) ∧
    (∀ (s : VADState) (p : ℚ) (n : Nat), s.threshold ≤ p →
        (s.process p n).2.silenceSamples = 0) := by
  refine ⟨?_, ?_, fun s => rfl, ?_⟩
  · intro s p n hs hp
    rw [process_silence_silent s p n hs hp]
  · intro s p n hlt
    by_cases hp : s.threshold ≤ p
    · by_cases hs : s.isSpeaking = false
      · by_cases hmin : s.minSpeechSamples ≤ s.speechSamples + n
        · rw [process_speech_trigger s p n hs hp hmin] at hlt
          simp at hlt
        · rw [process_speech_quiet s p n hp (by omega)] at hlt
          simp at hlt
      · rw [process_speech_speaking s p n (bool_not_false _ hs) hp] at hlt
        simp at hlt
    · have hplt : p < s.threshold := not_le.mp hp
      by_cases hs : s.isSpeaking = true
      · by_cases hmin : s.minSilenceSamples ≤ s.silenceSamples + n
        · rw [process_silence_end s p n hs hplt hmin]
          exact ⟨hs, rfl, rfl, rfl⟩
        · rw [process_silence_speaking_quiet s p n hplt (by omega)] at hlt
          simp at hlt
      · have hs2 : s.isSpeaking = false := by revert hs; cases s.isSpeaking <;> simp
        rw [process_silence_silent s p n hs2 hplt] at hlt
        simp at hlt
  · intro s p n hp
    simp only [VADState.process, if_pos hp]
    split_ifs <;> rfl

/-- Witness for C10: a quiet frame in `Silent` preserves 3000 accumulated
speech samples, and a loud frame zeroes an accumulated silence run. -/
theorem C10_speech_evidence_persists_witness :
    (({ threshold := mkRat 1 2, minSpeechSamples := 4000, minSilenceSamples := 8000,
        isSpeaking := false, speechSamples := 3000,
        silenceSamples := 0 : VADState }).process (mkRat 1 10) 512).2.speechSamples = 3000 ∧
    (({ threshold := mkRat 1 2, minSpeechSamples := 4000, minSilenceSamples := 8000,
        isSpeaking := false, speechSamples := 3000,
        silenceSamples := 512 : VADState }).process (mkRat 9 10) 512).2.silenceSamples = 0 :=
  ⟨C10_speech_evidence_persists.1 _ (mkRat 1 10) 512 rfl (by decide),
   C10_speech_evidence_persists.2.2.2 _ (mkRat 9 10) 512 (by decide)⟩

/-! ## Claims about control messages -/

/-- Claim C9: `update_params` updates exactly the fields whose arguments are
present (`threshold`, `min_speech_samples`, `min_silence_samples`) and leaves
`is_speaking` and both run counters untouched; handling an `updateParams`
control message (no `backend` field, no `reset`) changes nothing in the
session except applying `update_params` to the processor — in particular the
backend and the byte buffer are unchanged. -/
theorem C9_update_params_in_place :
    (∀ (s : VADState) (t : Option ℚ) (ms sil : Option Nat),
        (s.updateParams t ms sil).isSpeaking = s.isSpeaking ∧
        (s.updateParams t ms sil).speechSamples = s.speechSamples ∧
        (s.updateParams t ms sil).silenceSamples = s.silenceSamples ∧
        (s.updateParams t ms sil).threshold = t.getD s.threshold ∧
        (s.updateParams t ms sil).minSpeechSamples
          = (ms.map msToSamples).getD s.minSpeechSamples ∧
        (s.updateParams t ms sil).minSilenceSamples
          = (sil.map msToSamples).getD s.minSilenceSamples) ∧
    (∀ (cok : BackendName → Bool) (s : Session) (c : ControlMsg),
        c.isSpeakingField ≠ some false → c.backendField = none → c.resetField = false →
        handleControl cok s c =
          ({ s with
              vad := s.vad.updateParams c.thresholdField c.minSpeechMsField c.minSilenceMsField },
            true)) := by
  constructor
  · intro s t ms sil
    cases t <;> cases ms <;> cases sil <;>
      simp [VADState.updateParams, Option.getD, Option.map]
  · intro cok s c h1 h2 h3
    simp [handleControl, h1, h2, h3]

/-- Witness for C9: updating only the threshold leaves the counters, state,
minimums, backend and buffer unchanged, in a concrete session. -/
theorem C9_update_params_in_place_witness :
    (({ threshold := mkRat 1 2, minSpeechSamples := 4000, minSilenceSamples := 8000,
        isSpeaking := true, speechSamples := 123,
        silenceSamples := 45 : VADState }).updateParams (some (mkRat 7 10)) none none).isSpeaking
      = true ∧
    (({ threshold := mkRat 1 2, minSpeechSamples := 4000, minSilenceSamples := 8000,
        isSpeaking := true, speechSamples := 123,
        silenceSamples := 45 : VADState }).updateParams (some (mkRat 7 10)) none none).speechSamples
      = 123 ∧
    handleControl (fun _ => true) (initSession BackendName.ten)
        ⟨none, none, some (mkRat 7 10), none, none, false⟩ =
      ({ backend := BackendName.ten,
         vad := (initSession BackendName.ten).vad.updateParams (some (mkRat 7 10)) none none,
         buffer := [],
         frameCount := 0 }, true) := by
  refine ⟨?_, ?_, ?_⟩
  · exact (C9_update_params_in_place.1 _ (some (mkRat 7 10)) none none).1
  · exact (C9_update_params_in_place.1 _ (some (mkRat 7 10)) none none).2.1
  · exact C9_update_params_in_place.2 (fun _ => true) (initSession BackendName.ten)
      ⟨none, none, some (mkRat 7 10), none, none, false⟩ (by decide) rfl rfl

/-- Claim C6: if constructing the new backend during a `switchBackend` control
message fails, the session is left entirely untouched (same backend, hence
same frame size, same processor state including `is_speaking` and both run
counters, same buffered bytes) and the loop continues. -/
theorem C6_failed_switch_untouched (cok : BackendName → Bool) (s : Session)
    (c : ControlMsg) (nb : BackendName) (h1 : c.isSpeakingField ≠ some false)
    (h2 : c.backendField = some nb) (h3 : nb ≠ s.backend)
    (h4 : cok nb = false) (h5 : c.resetField = false) :
    handleControl cok s c = (s, true) := by
  simp [handleControl, h1, h2, h3, h4, h5]

/-- Witness for C6: a failed switch from `ten` to `funasr` leaves a concrete
session unchanged and alive. -/
theorem C6_failed_switch_untouched_witness :
    handleControl (fun b => !(b = BackendName.funasr)) (initSession BackendName.ten)
        ⟨none, some BackendName.funasr, none, none, none, false⟩ =
      (initSession BackendName.ten, true) :=
  C6_failed_switch_untouched _ _ _ BackendName.funasr (by decide) rfl (by decide)
    (by decide) rfl

/-! ## Frame buffer lemmas -/

/-- The result of the slicing loop does not depend on the fuel bound, as long
as the bound is at least the buffer length. -/
theorem extractFramesAux_fuel (fb : Nat) : ∀ (fuel fuel2 : Nat) (buf : List Nat),
    buf.length ≤ fuel → buf.length ≤ fuel2 →
    extractFramesAux fb fuel buf = extractFramesAux fb fuel2 buf := by
  intro fuel
  induction fuel with
  | zero =>
    intro fuel2 buf h h2
    have hb : buf = [] := List.length_eq_zero.mp (Nat.le_zero.mp h)
    subst hb
    cases fuel2 with
    | zero => rfl
    | succ k =>
      simp only [extractFramesAux, List.length_nil]
      rw [if_neg (by omega)]
  | succ fuel ih =>
    intro fuel2 buf h h2
    cases fuel2 with
    | zero =>
      have hb : buf = [] := List.length_eq_zero.mp (Nat.le_zero.mp h2)
      subst hb
      simp only [extractFramesAux, List.length_nil]
      rw [if_neg (by omega)]
    | succ fuel2 =>
      by_cases hg : 0 < fb ∧ fb ≤ buf.length
      · simp only [extractFramesAux, if_pos hg]
        rw [ih fuel2 (buf.drop fb) (by simp only [List.length_drop]; omega)
          (by simp only [List.length_drop]; omega)]
      · simp only [extractFramesAux, if_neg hg]

/-- Unfolding step of `extractFrames` when a whole frame is buffered. -/
theorem extractFrames_step (fb : Nat) (buf : List Nat) (h1 : 0 < fb)
    (h2 : fb ≤ buf.length) :
    extractFrames fb buf =
      (buf.take fb :: (extractFrames fb (buf.drop fb)).1,
       (extractFrames fb (buf.drop fb)).2) := by
  unfold extractFrames
  obtain ⟨k, hk⟩ : ∃ k, buf.length = k + 1 := ⟨buf.length - 1, by omega⟩
  rw [hk]
  simp only [extractFramesAux, if_pos (And.intro h1 h2)]
  rw [extractFramesAux_fuel fb k (buf.drop fb).length (buf.drop fb)
    (by simp only [List.length_drop]; omega) le_rfl]

/-- `extractFrames` is the identity when less than one frame is buffered. -/
theorem extractFrames_short (fb : Nat) (buf : List Nat)
    (hg : ¬(0 < fb ∧ fb ≤ buf.length)) :
    extractFrames fb buf = ([], buf) := by
  unfold extractFrames
  cases hk : buf.length with
  | zero => rfl
  | succ k =>
    simp only [extractFramesAux]
    rw [if_neg hg]

/-- No byte is dropped or duplicated: the yielded frames concatenated with the
retained tail reproduce the buffer exactly. -/
theorem extractFramesAux_flatten (fb : Nat) : ∀ (fuel : Nat) (buf : List Nat),
    buf.length ≤ fuel →
    (extractFramesAux fb fuel buf).1.flatten ++ (extractFramesAux fb fuel buf).2 = buf := by
  intro fuel
  induction fuel with
  | zero =>
    intro buf h
    have hb : buf = [] := List.length_eq_zero.mp (Nat.le_zero.mp h)
    subst hb
    rfl
  | succ fuel ih =>
    intro buf h
    by_cases hg : 0 < fb ∧ fb ≤ buf.length
    · simp only [extractFramesAux, if_pos hg, List.flatten_cons, List.append_assoc]
      rw [ih (buf.drop fb) (by simp only [List.length_drop]; omega)]
      exact List.take_append_drop fb buf
    · simp only [extractFramesAux, if_neg hg, List.flatten_nil, List.nil_append]

/-- Every yielded frame has exactly the required length. -/
theorem extractFramesAux_frame_len (fb : Nat) : ∀ (fuel : Nat) (buf : List Nat),
    ∀ fr ∈ (extractFramesAux fb fuel buf).1, fr.length = fb := by
  intro fuel
  induction fuel with
  | zero => intro buf fr hfr; simp [extractFramesAux] at hfr
  | succ fuel ih =>
    intro buf fr hfr
    by_cases hg : 0 < fb ∧ fb ≤ buf.length
    · simp only [extractFramesAux, if_pos hg] at hfr
      rcases List.mem_cons.mp hfr with h | h
      · rw [h, List.length_take]
        omega
      · exact ih (buf.drop fb) fr h
    · simp [extractFramesAux, if_neg hg] at hfr

/-- The retained tail is always shorter than one frame. -/
theorem extractFramesAux_rest_lt (fb : Nat) (hfb : 0 < fb) : ∀ (fuel : Nat) (buf : List Nat),
    buf.length ≤ fuel → (extractFramesAux fb fuel buf).2.length < fb := by
  intro fuel
  induction fuel with
  | zero =>
    intro buf h
    have hb : buf = [] := List.length_eq_zero.mp (Nat.le_zero.mp h)
    subst hb
    simpa [extractFramesAux] using hfb
  | succ fuel ih =>
    intro buf h
    by_cases hg : 0 < fb ∧ fb ≤ buf.length
    · simp only [extractFramesAux, if_pos hg]
      exact ih (buf.drop fb) (by simp only [List.length_drop]; omega)
    · simp only [extractFramesAux, if_neg hg]
      omega

/-- Streaming property: slicing `x ++ y` is slicing `x`, then slicing the
tail of `x` prefixed to `y`. -/
theorem extractFrames_append (fb : Nat) (hfb : 0 < fb) : ∀ (fuel : Nat) (x y : List Nat),
    x.length ≤ fuel →
    extractFrames fb (x ++ y) =
      ((extractFramesAux fb fuel x).1
         ++ (extractFrames fb ((extractFramesAux fb fuel x).2 ++ y)).1,
       (extractFrames fb ((extractFramesAux fb fuel x).2 ++ y)).2) := by
  intro fuel
  induction fuel with
  | zero =>
    intro x y h
    have hb : x = [] := List.length_eq_zero.mp (Nat.le_zero.mp h)
    subst hb
    simp only [extractFramesAux, List.nil_append]
  | succ fuel ih =>
    intro x y h
    by_cases hg : 0 < fb ∧ fb ≤ x.length
    · have hstep := extractFrames_step fb (x ++ y) hfb
        (by rw [List.length_append]; omega)
      rw [List.take_append_of_le_length hg.2, List.drop_append_of_le_length hg.2] at hstep
      rw [hstep, ih (x.drop fb) y (by simp only [List.length_drop]; omega)]
      simp only [extractFramesAux, if_pos hg, List.cons_append]
    · simp only [extractFramesAux, if_neg hg]
      simp only [List.nil_append]

/-- The frame buffer over any sequence of pushes, started on a partial tail,
equals slicing the whole concatenation at once. -/
theorem runPushes_eq_extract (fb : Nat) (hfb : 0 < fb) :
    ∀ (cs : List (List Nat)) (buf : List Nat), buf.length < fb →
    runPushes fb buf cs = extractFrames fb (buf ++ cs.flatten) := by
  intro cs
  induction cs with
  | nil =>
    intro buf h
    rw [runPushes, List.flatten_nil, List.append_nil,
      extractFrames_short fb buf (by omega)]
  | cons c cs ih =>
    intro buf h
    have hrest : (extractFrames fb (buf ++ c)).2.length < fb :=
      extractFramesAux_rest_lt fb hfb (buf ++ c).length (buf ++ c) le_rfl
    simp only [runPushes, List.flatten_cons]
    rw [ih (extractFrames fb (buf ++ c)).2 hrest, ← List.append_assoc]
    exact (extractFrames_append fb hfb (buf ++ c).length (buf ++ c) cs.flatten le_rfl).symm

/-- Concatenation of equal-length lists has length `count * fb`. -/
theorem flatten_length_const (fb : Nat) (l : List (List Nat))
    (h : ∀ x ∈ l, x.length = fb) : l.flatten.length = l.length * fb := by
  induction l with
  | nil => simp
  | cons x xs ih =>
    simp only [List.flatten_cons, List.length_append, List.length_cons,
      h x (List.mem_cons_self x xs), ih (fun z hz => h z (List.mem_cons_of_mem x hz))]
    ring

/-- Euclidean uniqueness used to count frames. -/
theorem quot_unique (fb a b s r : Nat) (hfb : 0 < fb) (hs : s < fb) (hr : r < fb)
    (h : a * fb + s = b * fb + r) : a = b := by
  have key : ∀ (u v : Nat), v < fb → (u * fb + v) / fb = u := by
    intro u v hv
    rw [Nat.mul_comm, Nat.mul_add_div hfb, Nat.div_eq_of_lt hv, Nat.add_zero]
  rw [← key a s hs, h, key b r hr]

/-- Claim C2: for any sequence of binary pushes whose concatenation holds `N`
whole frames of `fb` bytes plus a remainder `r < fb`, split arbitrarily
across the pushes, the frame buffer yields exactly `N` frames in arrival
order, each exactly `fb` bytes, byte-identical to slicing the concatenation
directly; the remainder is retained and no byte is dropped or duplicated. -/
theorem C2_frame_buffer_exact (fb N r : Nat) (pushes : List (List Nat))
    (hfb : 0 < fb) (hlen : pushes.flatten.length = N * fb + r) (hr : r < fb) :
    (runPushes fb [] pushes).1.length = N ∧
    (∀ fr ∈ (runPushes fb [] pushes).1, fr.length = fb) ∧
    (runPushes fb [] pushes).1.flatten ++ (runPushes fb [] pushes).2
      = pushes.flatten ∧
    (runPushes fb [] pushes).2.length = r ∧
    runPushes fb [] pushes = extractFrames fb pushes.flatten := by
  have heq : runPushes fb [] pushes = extractFrames fb pushes.flatten := by
    have := runPushes_eq_extract fb hfb pushes [] (by simpa using hfb)
    simpa using this
  have hframes : ∀ fr ∈ (runPushes fb [] pushes).1, fr.length = fb := by
    rw [heq]
    exact extractFramesAux_frame_len fb pushes.flatten.length pushes.flatten
  have hflat : (runPushes fb [] pushes).1.flatten ++ (runPushes fb [] pushes).2
      = pushes.flatten := by
    rw [heq]
    exact extractFramesAux_flatten fb pushes.flatten.length pushes.flatten le_rfl
  have hrest : (runPushes fb [] pushes).2.length < fb := by
    rw [heq]
    exact extractFramesAux_rest_lt fb hfb pushes.flatten.length pushes.flatten le_rfl
  have hcount : (runPushes fb [] pushes).1.flatten.length
      = (runPushes fb [] pushes).1.length * fb :=
    flatten_length_const fb _ hframes
  have hlen2 : (runPushes fb [] pushes).1.length * fb + (runPushes fb [] pushes).2.length
      = N * fb + r := by
    have := congrArg List.length hflat
    rw [List.length_append, hcount] at this
    rw [this, hlen]
  have hN : (runPushes fb [] pushes).1.length = N :=
    quot_unique fb _ N _ r hfb hrest hr hlen2
  refine ⟨hN, hframes, hflat, ?_, heq⟩
  rw [hN] at hlen2
  omega

/-- Witness for C2 with frame size 2 and pushes `[1] / [2,3] / [4,5]`
(N = 2 whole frames plus remainder `[5]`). -/
theorem C2_frame_buffer_exact_witness :
    (runPushes 2 [] [[1], [2, 3], [4, 5]]).1.length = 2 ∧
    (runPushes 2 [] [[1], [2, 3], [4, 5]]).1 = [[1, 2], [3, 4]] ∧
    (runPushes 2 [] [[1], [2, 3], [4, 5]]).2 = [5] ∧
    runPushes 2 [] [[1], [2, 3], [4, 5]] = extractFrames 2 [1, 2, 3, 4, 5] := by
  have h := C2_frame_buffer_exact 2 2 1 [[1], [2, 3], [4, 5]] (by decide) (by decide)
    (by decide)
  refine ⟨h.1, by decide, by decide, ?_⟩
  rw [h.2.2.2.2]
  rfl


/-! ## Session loop lemmas -/

/-- Every configured backend has a positive chunk size. -/
theorem CHUNK_SIZES_pos (b : BackendName) : 0 < CHUNK_SIZES b := by
  cases b <;> decide

/-- When the classifier raises on the first buffered frame, the drain loop
stops at once: no events, the failing frame consumed, counters untouched,
`ok = false`. -/
theorem handleBufferAux_fail (classify : List Nat → Option ℚ) (cs fuel : Nat)
    (vad : VADState) (buf : List Nat) (cnt : Nat)
    (hg : 0 < cs ∧ cs * 2 ≤ buf.length) (hfuel : 0 < fuel)
    (hfail : classify (buf.take (cs * 2)) = none) :
    handleBufferAux classify cs fuel vad buf cnt
      = ⟨[], [buf.take (cs * 2)], vad, buf.drop (cs * 2), cnt + 1, false⟩ := by
  cases fuel with
  | zero => omega
  | succ fuel => simp only [handleBufferAux, if_pos hg, hfail]

/-- When classification always succeeds, the drain loop consumes exactly the
frames and tail computed by the pure slicer. -/
theorem handleBufferAux_frames (classify : List Nat → Option ℚ) (cs : Nat)
    (hcl : ∀ fr, (classify fr).isSome = true) : ∀ (fuel : Nat) (vad : VADState)
    (buf : List Nat) (cnt : Nat),
    (handleBufferAux classify cs fuel vad buf cnt).frames
      = (extractFramesAux (cs * 2) fuel buf).1 ∧
    (handleBufferAux classify cs fuel vad buf cnt).buffer
      = (extractFramesAux (cs * 2) fuel buf).2 := by
  intro fuel
  induction fuel with
  | zero => intro vad buf cnt; exact ⟨rfl, rfl⟩
  | succ fuel ih =>
    intro vad buf cnt
    by_cases hg : 0 < cs ∧ cs * 2 ≤ buf.length
    · have hg2 : 0 < cs * 2 ∧ cs * 2 ≤ buf.length := ⟨by omega, hg.2⟩
      obtain ⟨p, hp⟩ := Option.isSome_iff_exists.mp (hcl (buf.take (cs * 2)))
      simp only [handleBufferAux, extractFramesAux, if_pos hg, if_pos hg2, hp]
      have ihh := ih ((vad.process p cs).2) (buf.drop (cs * 2)) (cnt + 1)
      exact ⟨by rw [ihh.1], by rw [ihh.2]⟩
    · have hg2 : ¬(0 < cs * 2 ∧ cs * 2 ≤ buf.length) := by
        rintro ⟨a, b⟩
        exact hg ⟨by omega, b⟩
      simp only [handleBufferAux, extractFramesAux, if_neg hg, if_neg hg2]
      exact ⟨trivial, trivial⟩

set_option maxRecDepth 100000 in
/-- Counterexample to claim C3 as stated: after a successful backend switch
(`ten` to `webrtc`) with one buffered tail byte, the tail is NOT discarded —
it is still in the buffer after the switch. -/
theorem C3_tail_not_discarded_counterexample :
    (sessionRun (fun _ => true) (fun _ => some (mkRat 9 10)) (initSession BackendName.ten)
        [ClientMsg.binary [7],
         ClientMsg.text ⟨none, some BackendName.webrtc, none, none, none, false⟩]).session.backend
      = BackendName.webrtc ∧
    (sessionRun (fun _ => true) (fun _ => some (mkRat 9 10)) (initSession BackendName.ten)
        [ClientMsg.binary [7],
         ClientMsg.text ⟨none, some BackendName.webrtc, none, none, none, false⟩]).session.buffer
      = [7] ∧
    [7] ≠ ([] : List Nat) := by
  decide

/-- Claim C3 (amended): a successful `switchBackend` message retains the
buffered partial-frame tail (the buffer is untouched by the text branch);
subsequent binary data is prefixed with that tail and sliced at the NEW
backend's frame size, every frame handed to the new backend having exactly
that size. -/
theorem C3_switch_keeps_tail_new_size (cok : BackendName → Bool)
    (classify : List Nat → Option ℚ) (s : Session) (c : ControlMsg) (nb : BackendName)
    (h1 : c.isSpeakingField ≠ some false) (h2 : c.backendField = some nb)
    (h3 : nb ≠ s.backend) (h4 : cok nb = true) (h5 : c.resetField = false)
    (hcl : ∀ fr, (classify fr).isSome = true) :
    (handleControl cok s c).1.buffer = s.buffer ∧
    (handleControl cok s c).1.backend = nb ∧
    ∀ bs : List Nat,
      (sessionStep cok classify (handleControl cok s c).1 (ClientMsg.binary bs)).session.buffer
        = (extractFrames (CHUNK_SIZES nb * 2) (s.buffer ++ bs)).2 ∧
      (handleBuffer classify (CHUNK_SIZES nb) (handleControl cok s c).1.vad
          (s.buffer ++ bs) (handleControl cok s c).1.frameCount).frames
        = (extractFrames (CHUNK_SIZES nb * 2) (s.buffer ++ bs)).1 ∧
      ∀ fr ∈ (extractFrames (CHUNK_SIZES nb * 2) (s.buffer ++ bs)).1,
        fr.length = CHUNK_SIZES nb * 2 := by
  have hc : handleControl cok s c =
      ({ s with
          backend := nb,
          vad := initVADState (c.thresholdField.getD (mkRat 1 2))
            (c.minSpeechMsField.getD 250) (c.minSilenceMsField.getD 500) }, true) := by
    simp [handleControl, h1, h2, h3, h4, h5]
  refine ⟨by rw [hc], by rw [hc], ?_⟩
  intro bs
  have hframes := handleBufferAux_frames classify (CHUNK_SIZES nb) hcl
  refine ⟨?_, ?_, ?_⟩
  · rw [hc]
    simp only [sessionStep, handleBuffer]
    exact (hframes (s.buffer ++ bs).length _ _ _).2
  · rw [hc]
    simp only [handleBuffer]
    exact (hframes (s.buffer ++ bs).length _ _ _).1
  · exact extractFramesAux_frame_len (CHUNK_SIZES nb * 2) (s.buffer ++ bs).length
      (s.buffer ++ bs)

/-- Witness for the amended C3: switching `ten → webrtc` with `[7]` buffered
keeps `[7]`, and pushing three more bytes afterwards (less than one webrtc
frame) just accumulates them. -/
theorem C3_switch_keeps_tail_new_size_witness :
    (handleControl (fun _ => true)
        { backend := BackendName.ten, vad := initVADState (mkRat 1 2) 250 500,
          buffer := [7], frameCount := 0 }
        ⟨none, some BackendName.webrtc, none, none, none, false⟩).1.buffer = [7] ∧
    (handleControl (fun _ => true)
        { backend := BackendName.ten, vad := initVADState (mkRat 1 2) 250 500,
          buffer := [7], frameCount := 0 }
        ⟨none, some BackendName.webrtc, none, none, none, false⟩).1.backend
      = BackendName.webrtc := by
  have h := C3_switch_keeps_tail_new_size (fun _ => true) (fun _ => some (mkRat 9 10))
    { backend := BackendName.ten, vad := initVADState (mkRat 1 2) 250 500,
      buffer := [7], frameCount := 0 }
    ⟨none, some BackendName.webrtc, none, none, none, false⟩ BackendName.webrtc
    (by decide) rfl (by decide) rfl rfl (fun fr => rfl)
  exact ⟨h.1, h.2.1⟩

set_option maxRecDepth 200000 in
/-- Counterexample to claim C4 as stated: when the backend raises while
classifying the first frame, the session does NOT remain alive and the next
frame (a second full frame in the following message) is NOT processed — the
loop exits with only one frame counted. -/
theorem C4_error_not_skipped_counterexample :
    (sessionRun (fun _ => true) (fun _ => none) (initSession BackendName.ten)
        [ClientMsg.binary (List.replicate 512 0),
         ClientMsg.binary (List.replicate 512 1)]).alive = false ∧
    (sessionRun (fun _ => true) (fun _ => none) (initSession BackendName.ten)
        [ClientMsg.binary (List.replicate 512 0),
         ClientMsg.binary (List.replicate 512 1)]).session.frameCount = 1 ∧
    (sessionRun (fun _ => true) (fun _ => none) (initSession BackendName.ten)
        [ClientMsg.binary (List.replicate 512 0),
         ClientMsg.binary (List.replicate 512 1)]).session.vad
      = (initSession BackendName.ten).vad := by
  decide

/-- Claim C4 (amended): a backend error while classifying a frame leaves the
run counters and the whole processor state unchanged for that frame, but it
is fatal, not a skip: the exception escapes the receive loop, no event is
sent, and neither the rest of that message nor any later message is
processed — the session ends. -/
theorem C4_classification_error_fatal (cok : BackendName → Bool)
    (classify : List Nat → Option ℚ) (s : Session) (bs : List Nat) (ms : List ClientMsg)
    (hlen : CHUNK_SIZES s.backend * 2 ≤ (s.buffer ++ bs).length)
    (hfail : classify ((s.buffer ++ bs).take (CHUNK_SIZES s.backend * 2)) = none) :
    (sessionRun cok classify s (ClientMsg.binary bs :: ms)).alive = false ∧
    (sessionRun cok classify s (ClientMsg.binary bs :: ms)).session.vad = s.vad ∧
    (sessionRun cok classify s (ClientMsg.binary bs :: ms)).events = [] ∧
    (sessionRun cok classify s (ClientMsg.binary bs :: ms)).session.frameCount
      = s.frameCount + 1 := by
  have hpos := CHUNK_SIZES_pos s.backend
  have hfb := handleBufferAux_fail classify (CHUNK_SIZES s.backend)
    (s.buffer ++ bs).length s.vad (s.buffer ++ bs) s.frameCount ⟨hpos, hlen⟩
    (by omega) hfail
  simp only [sessionRun, sessionStep, handleBuffer, hfb]
  exact ⟨rfl, rfl, rfl, rfl⟩

set_option maxRecDepth 200000 in
/-- Witness for the amended C4: one full frame whose classification fails
ends a concrete session with counters untouched and one frame counted. -/
theorem C4_classification_error_fatal_witness :
    (sessionRun (fun _ => true) (fun _ => none) (initSession BackendName.sileroOnnx)
        [ClientMsg.binary (List.replicate 1024 3),
         ClientMsg.binary (List.replicate 1024 4)]).alive = false ∧
    (sessionRun (fun _ => true) (fun _ => none) (initSession BackendName.sileroOnnx)
        [ClientMsg.binary (List.replicate 1024 3),
         ClientMsg.binary (List.replicate 1024 4)]).events = [] ∧
    (sessionRun (fun _ => true) (fun _ => none) (initSession BackendName.sileroOnnx)
        [ClientMsg.binary (List.replicate 1024 3),
         ClientMsg.binary (List.replicate 1024 4)]).session.frameCount = 1 := by
  have h := C4_classification_error_fatal (fun _ => true) (fun _ => none)
    (initSession BackendName.sileroOnnx) (List.replicate 1024 3)
    [ClientMsg.binary (List.replicate 1024 4)] (by simp [initSession, CHUNK_SIZES]) rfl
  exact ⟨h.1, h.2.2.1, h.2.2.2⟩
